import Mathlib

/-!
Verification of the workflow execution engine of the `pallet` repository
(`src/workflow_engine.py`): data model, template-expression resolver,
execution context and the step-execution state machine (sequential,
parallel, conditional, switch).

The Python code is shallowly embedded: Python values flowing through the
engine become the inductive type `Value`; Python dicts become ordered
association lists (insertion order preserved, key update in place, exactly
like a Python `dict`); raised exceptions become `Except`/`Option` errors;
the two external collaborators (agent discovery and the remote skill call)
become an explicit oracle record `Env`; the mutable engine/context state is
threaded explicitly.  Every definition follows the corresponding Python
function; line references point into `src/workflow_engine.py`.
-/

namespace Pallet

/-- A Python value as it flows through the workflow engine: `None`, booleans,
integers, strings, lists and string-keyed dicts (the engine only ever indexes
dicts by string keys coming from template paths and YAML mappings). -/
inductive Value where
  | none : Value
  | bool (b : Bool) : Value
  | int (n : Int) : Value
  | str (s : String) : Value
  | list (l : List Value) : Value
  | dict (d : List (String × Value)) : Value
deriving Repr

/-- `d[key]` lookup in a Python dict modelled as an ordered association list:
first (unique) matching key wins. -/
def lookupStr {α : Type} : List (String × α) → String → Option α
  | [], _ => Option.none
  | (k, v) :: rest, key => if k = key then some v else lookupStr rest key

/-- `d[key] = v` on a Python dict: an existing key keeps its position and gets
the new value, a fresh key is appended (Python dicts preserve insertion
order). -/
def dictSet {α : Type} : List (String × α) → String → α → List (String × α)
  | [], key, v => [(key, v)]
  | (k, w) :: rest, key, v =>
    if k = key then (key, v) :: rest else (k, w) :: dictSet rest key v

/-- Python truthiness (`bool(v)`) for the values of the embedding: `None`,
`False`, `0`, `""`, `[]` and `{}` are falsy, everything else truthy. -/
def truthy : Value → Bool
  | Value.none => false
  | Value.bool b => b
  | Value.int n => n ≠ 0
  | Value.str s => s ≠ ""
  | Value.list l => !l.isEmpty
  | Value.dict d => !d.isEmpty

/-- A one-character string holding an ASCII apostrophe, used by `pyRepr`. -/
def sq : String := String.singleton '\x27'

mutual

/-- Python `repr` of a value (as used by `str` on containers): `None`,
`True`/`False`, decimal integers, single-quoted strings, `[...]` lists and
`\x7b'k': v\x7d` dicts.  String-escaping subtleties of `repr` are not needed
by the engine and are not modelled. -/
def pyRepr : Value → String
  | Value.none => "None"
  | Value.bool b => if b then "True" else "False"
  | Value.int n => toString n
  | Value.str s => sq ++ s ++ sq
  | Value.list l => "[" ++ pyReprList l ++ "]"
  | Value.dict d => "\x7b" ++ pyReprDict d ++ "\x7d"

/-- Comma-separated `repr` of the elements of a Python list. -/
def pyReprList : List Value → String
  | [] => ""
  | [v] => pyRepr v
  | v :: rest => pyRepr v ++ ", " ++ pyReprList rest

/-- Comma-separated `repr` of the entries of a Python dict. -/
def pyReprDict : List (String × Value) → String
  | [] => ""
  | [(k, v)] => sq ++ k ++ sq ++ ": " ++ pyRepr v
  | (k, v) :: rest => sq ++ k ++ sq ++ ": " ++ pyRepr v ++ ", " ++ pyReprDict rest

end

/-- Python `str(v)`: the string itself for strings, `repr` otherwise
(scalars and containers).  Used by the switch step for its case lookup. -/
def pyStr : Value → String
  | Value.str s => s
  | v => pyRepr v

/-- ASCII whitespace as matched by Python `\s` and stripped by `str.strip()`
(space, tab, newline, carriage return, vertical tab, form feed; the engine
never feeds the resolver non-ASCII whitespace). -/
def pySpace (c : Char) : Bool :=
  c = ' ' || c = '\t' || c = '\n' || c = '\r' || c = '\x0b' || c = '\x0c'

/-- `s.strip()`: drop leading and trailing whitespace, as the characters of
the stripped string. -/
def pyStrip (s : String) : List Char :=
  ((s.toList.dropWhile pySpace).reverse.dropWhile pySpace).reverse

/-- Match `\s*\x7d\x7d` at `cs` (the tail of the template pattern).  The
greedy `\s*` can never profitably backtrack here, because every shorter
whitespace run leaves a whitespace character where `\x7d` is required; so the
regex semantics is: drop all whitespace, then require the two closing
braces.  Returns the remainder after the braces. -/
def matchClose (cs : List Char) : Option (List Char) :=
  match cs.dropWhile pySpace with
  | '\x7d' :: '\x7d' :: rest => some rest
  | _ => Option.none

/-- Match `(.+?)\s*\x7d\x7d` at `cs` with the lazy semantics of `re`:
the group takes as few characters as possible (at least one, none of them a
newline, since `.` does not match `\n`) such that `\s*\x7d\x7d` matches right
after it.  Returns the group and the remainder after the closing braces. -/
def matchGroupClose : List Char → Option (List Char × List Char)
  | [] => Option.none
  | c :: rest =>
    if c = '\n' then Option.none
    else
      match matchClose rest with
      | some rem => some ([c], rem)
      | Option.none =>
        match matchGroupClose rest with
        | some (g, rem) => some (c :: g, rem)
        | Option.none => Option.none

/-- Match `\s*(.+?)\s*\x7d\x7d` at `cs`: the leading `\s*` is greedy, so the
longest whitespace run is tried first and characters are given back to the
group one at a time on failure. -/
def matchSpacesGroup : List Char → Option (List Char × List Char)
  | [] => Option.none
  | c :: rest =>
    if pySpace c then
      match matchSpacesGroup rest with
      | some r => some r
      | Option.none => matchGroupClose (c :: rest)
    else matchGroupClose (c :: rest)

/-- `re.match(r"\x7b\x7b\s*(.+?)\s*\x7d\x7d", s.strip())` from
`WorkflowContext.resolve_expression` (line 102): anchored at the start of the
stripped string only — trailing text after the closing braces is allowed and
ignored.  Returns `group(1)` on a match. -/
def pyMatch (s : String) : Option String :=
  match pyStrip s with
  | '\x7b' :: '\x7b' :: rest =>
    match matchSpacesGroup rest with
    | some (g, _) => some (String.mk g)
    | Option.none => Option.none
  | _ => Option.none

/-- Helper for `pySplitDot`: accumulates the current segment (reversed). -/
def splitAux : List Char → List Char → List String
  | [], acc => [String.mk acc.reverse]
  | c :: rest, acc =>
    if c = '.' then String.mk acc.reverse :: splitAux rest []
    else splitAux rest (c :: acc)

/-- Python `s.split(".")`: dot-separated segments, empty segments preserved;
never returns an empty list. -/
def pySplitDot (s : String) : List String := splitAux s.toList []

/-- The Python exceptions the engine can raise, with the message `str(e)`
would produce. -/
inductive PyErr where
  | indexError : PyErr
  | valueError (msg : String) : PyErr
  | runtimeError (msg : String) : PyErr
deriving Repr, DecidableEq

/-- `str(e)` for an exception, as interpolated into the parallel group's
re-raised message (line 338). -/
def PyErr.msg : PyErr → String
  | PyErr.indexError => "list index out of range"
  | PyErr.valueError m => m
  | PyErr.runtimeError m => m

/-- `WorkflowContext` (lines 75-85): the run's initial input and the
accumulated step outputs, each `step_id ↦ \x7b"outputs": ...\x7d`. -/
structure WorkflowContext where
  workflow_input : List (String × Value)
  step_outputs : List (String × Value)
deriving Repr

/-- `WorkflowContext.set_step_output` (lines 83-85): store
`\x7b"outputs": output\x7d` under `step_id`, overwriting silently. -/
def WorkflowContext.set_step_output (ctx : WorkflowContext) (step_id : String)
    (output : Value) : WorkflowContext :=
  { ctx with
    step_outputs := dictSet ctx.step_outputs step_id (Value.dict [("outputs", output)]) }

/-- The path-navigation loop of `resolve_expression` (lines 122-128): descend
one key at a time; a non-dict value or an absent key yields `None`. -/
def navigate : Value → List String → Value
  | data, [] => data
  | data, key :: rest =>
    match data with
    | Value.dict d =>
      match lookupStr d key with
      | some v => navigate v rest
      | Option.none => Value.none
    | _ => Value.none

/-- `WorkflowContext.resolve_expression` (lines 87-128).  Non-strings pass
through.  A string is stripped and matched against the template pattern; no
match returns the string itself.  The matched group is split on dots; a
single-segment path whose head is `workflow` or `steps` makes Python evaluate
`path[1]` and raise `IndexError`.  Roots `workflow.input` and
`steps.<id>` (looked up in `step_outputs`) are navigated; any other root
yields `None`. -/
def WorkflowContext.resolve_expression (ctx : WorkflowContext)
    (expression : Value) : Except PyErr Value :=
  match expression with
  | Value.str s =>
    match pyMatch s with
    | Option.none => Except.ok (Value.str s)
    | some g =>
      match pySplitDot g with
      | [] => Except.ok Value.none
      | [p0] =>
        if p0 = "workflow" ∨ p0 = "steps" then Except.error PyErr.indexError
        else Except.ok Value.none
      | p0 :: p1 :: rest =>
        if p0 = "workflow" ∧ p1 = "input" then
          Except.ok (navigate (Value.dict ctx.workflow_input) rest)
        else if p0 = "steps" then
          match lookupStr ctx.step_outputs p1 with
          | Option.none => Except.ok Value.none
          | some data => Except.ok (navigate data rest)
        else Except.ok Value.none
  | v => Except.ok v

/-- The list comprehension of `resolve_inputs` (lines 139-142): string
elements go through `resolve_expression`, every other element (including
nested dicts) passes through untouched. -/
def resolve_list_elems (ctx : WorkflowContext) : List Value → Except PyErr (List Value)
  | [] => Except.ok []
  | Value.str s :: rest =>
    match ctx.resolve_expression (Value.str s) with
    | Except.error e => Except.error e
    | Except.ok v =>
      match resolve_list_elems ctx rest with
      | Except.error e => Except.error e
      | Except.ok vs => Except.ok (v :: vs)
  | v :: rest =>
    match resolve_list_elems ctx rest with
    | Except.error e => Except.error e
    | Except.ok vs => Except.ok (v :: vs)

/-- `WorkflowContext.resolve_inputs` (lines 130-145): entry-by-entry in
insertion order — string values through `resolve_expression`, dict values
recursively, list values through the elementwise comprehension, anything else
unchanged. -/
def WorkflowContext.resolve_inputs (ctx : WorkflowContext) :
    List (String × Value) → Except PyErr (List (String × Value))
  | [] => Except.ok []
  | (key, Value.str s) :: rest =>
    match ctx.resolve_expression (Value.str s) with
    | Except.error e => Except.error e
    | Except.ok v =>
      match ctx.resolve_inputs rest with
      | Except.error e => Except.error e
      | Except.ok rest' => Except.ok ((key, v) :: rest')
  | (key, Value.dict d) :: rest =>
    match ctx.resolve_inputs d with
    | Except.error e => Except.error e
    | Except.ok d' =>
      match ctx.resolve_inputs rest with
      | Except.error e => Except.error e
      | Except.ok rest' => Except.ok ((key, Value.dict d') :: rest')
  | (key, Value.list l) :: rest =>
    match resolve_list_elems ctx l with
    | Except.error e => Except.error e
    | Except.ok l' =>
      match ctx.resolve_inputs rest with
      | Except.error e => Except.error e
      | Except.ok rest' => Except.ok ((key, Value.list l') :: rest')
  | (key, v) :: rest =>
    match ctx.resolve_inputs rest with
    | Except.error e => Except.error e
    | Except.ok rest' => Except.ok ((key, v) :: rest')

/-- `StepType` (lines 27-33): the four execution patterns. -/
inductive StepType where
  | sequential : StepType
  | parallel : StepType
  | conditional : StepType
  | switch : StepType
deriving Repr, DecidableEq

/-- `WorkflowStep` (lines 36-52).  `branches` maps branch keys to nested step
lists; the raw YAML dicts that Python re-validates into `WorkflowStep` objects
at dispatch time (`WorkflowStep(**d)`) are embedded as already-typed steps. -/
inductive WorkflowStep where
  | mk (id : String) (skill : String) (inputs : List (String × Value))
      (outputs : Option String) (timeout : Option Nat) (step_type : StepType)
      (condition : Option String)
      (branches : Option (List (String × List WorkflowStep))) : WorkflowStep

/-- The `id` field of a step. -/
def WorkflowStep.id : WorkflowStep → String
  | WorkflowStep.mk i _ _ _ _ _ _ _ => i

/-- The `skill` field of a step. -/
def WorkflowStep.skill : WorkflowStep → String
  | WorkflowStep.mk _ sk _ _ _ _ _ _ => sk

/-- The `inputs` field of a step. -/
def WorkflowStep.inputs : WorkflowStep → List (String × Value)
  | WorkflowStep.mk _ _ inp _ _ _ _ _ => inp

/-- The `outputs` field of a step (optional output variable name). -/
def WorkflowStep.outputs : WorkflowStep → Option String
  | WorkflowStep.mk _ _ _ outp _ _ _ _ => outp

/-- The `timeout` field of a step (defaulted to `some 300` by the model). -/
def WorkflowStep.timeout : WorkflowStep → Option Nat
  | WorkflowStep.mk _ _ _ _ t _ _ _ => t

/-- The `step_type` field of a step. -/
def WorkflowStep.step_type : WorkflowStep → StepType
  | WorkflowStep.mk _ _ _ _ _ ty _ _ => ty

/-- The `condition` field of a step. -/
def WorkflowStep.condition : WorkflowStep → Option String
  | WorkflowStep.mk _ _ _ _ _ _ c _ => c

/-- The `branches` field of a step. -/
def WorkflowStep.branches : WorkflowStep → Option (List (String × List WorkflowStep))
  | WorkflowStep.mk _ _ _ _ _ _ _ b => b

/-- `WorkflowMetadata` (lines 55-62). -/
structure WorkflowMetadata where
  id : String
  name : String
  version : String
  description : String := ""
  tags : List String := []
deriving Repr

/-- `WorkflowDefinition` (lines 65-72); `error_handling` is accepted but
never interpreted by the engine. -/
structure WorkflowDefinition where
  metadata : WorkflowMetadata
  steps : List WorkflowStep
  error_handling : Option Value := Option.none

/-- The outcome of one remote skill invocation
(`WorkflowEngine.call_agent_skill`, lines 209-248, collapsed to its
observable result): the decoded `result` payload, a timeout, or any other
failure (HTTP error, agent-reported error) with its message. -/
inductive InvokeResult where
  | ok (result : Value) : InvokeResult
  | timeout : InvokeResult
  | fail (msg : String) : InvokeResult

/-- The two external collaborators, as deterministic oracles: `discover` is
`src.discovery.discover_agent` (skill id to agent URL, `none` when not
found), `invoke` is the remote `call_agent_skill` transport keyed by agent
URL, skill id and resolved params. -/
structure Env where
  discover : String → Option String
  invoke : String → String → List (String × Value) → InvokeResult

/-- The mutable state of a `WorkflowEngine` instance plus the two
observation logs of the embedding: `agent_cache` is the engine's
`self.agent_cache`; `disc_calls` records each skill id for which the external
discovery collaborator was actually consulted; `trace` records the id of each
step whose skill was actually invoked, in invocation order. -/
structure EngineSt where
  agent_cache : List (String × String)
  disc_calls : List String
  trace : List String
deriving Repr, DecidableEq

/-- `WorkflowEngine.__init__` (lines 180-182): empty cache (and empty logs). -/
def initEngine : EngineSt := ⟨[], [], []⟩

/-- `WorkflowEngine.discover_agent_for_skill` (lines 184-207): return the
cached URL if present; otherwise consult the discovery collaborator, raise
`ValueError` on a falsy URL (`None` or `""`), else cache and return it. -/
def discover_agent_for_skill (env : Env) (st : EngineSt) (skill_id : String) :
    EngineSt × Except PyErr String :=
  match lookupStr st.agent_cache skill_id with
  | some url => (st, Except.ok url)
  | Option.none =>
    let st' := { st with disc_calls := st.disc_calls ++ [skill_id] }
    match env.discover skill_id with
    | Option.none =>
      (st', Except.error (PyErr.valueError ("No agent found for skill: " ++ skill_id)))
    | some url =>
      if url = "" then
        (st', Except.error (PyErr.valueError ("No agent found for skill: " ++ skill_id)))
      else
        ({ st' with agent_cache := dictSet st'.agent_cache skill_id url }, Except.ok url)

/-- `f"\x7bstep.timeout\x7ds"` renders `None` for a missing timeout. -/
def timeoutStr : Option Nat → String
  | Option.none => "None"
  | some n => toString n

/-- `WorkflowEngine.execute_step` (lines 250-290): resolve the input
templates (exceptions propagate untouched), discover the agent (ValueError
propagates untouched), then invoke the skill; only the invocation itself is
wrapped — a timeout or any other failure becomes a `RuntimeError` naming the
step. -/
def execute_step (env : Env) (st : EngineSt) (step : WorkflowStep)
    (ctx : WorkflowContext) : EngineSt × Except PyErr Value :=
  match ctx.resolve_inputs step.inputs with
  | Except.error e => (st, Except.error e)
  | Except.ok resolved_inputs =>
    match discover_agent_for_skill env st step.skill with
    | (st', Except.error e) => (st', Except.error e)
    | (st', Except.ok agent_url) =>
      let st'' := { st' with trace := st'.trace ++ [step.id] }
      match env.invoke agent_url step.skill resolved_inputs with
      | InvokeResult.ok result => (st'', Except.ok result)
      | InvokeResult.timeout =>
        (st'', Except.error (PyErr.runtimeError
          ("Step " ++ step.id ++ " timed out after " ++ timeoutStr step.timeout ++ "s")))
      | InvokeResult.fail m =>
        (st'', Except.error (PyErr.runtimeError ("Step " ++ step.id ++ " failed: " ++ m)))

/-- The output-storing rule shared by the sequential paths (lines 308-312,
340-343, 488-492): namespace the result under `step.outputs` when that name
is truthy (present and non-empty), else store the raw result. -/
def storeStepOutput (ctx : WorkflowContext) (step : WorkflowStep)
    (result : Value) : WorkflowContext :=
  match step.outputs with
  | some name =>
    if name = "" then ctx.set_step_output step.id result
    else ctx.set_step_output step.id (Value.dict [(name, result)])
  | Option.none => ctx.set_step_output step.id result

/-- The result of running a step list: final engine state, the context as it
stands at return or at the moment the exception is raised, and the raised
exception if any. -/
abbrev StepResult := EngineSt × WorkflowContext × Option PyErr

/-- `WorkflowEngine.execute_sequential_steps` (lines 292-314): run the steps
in order, storing each result with the namespacing rule; the first exception
propagates. -/
def execute_sequential_steps (env : Env) :
    EngineSt → List WorkflowStep → WorkflowContext → StepResult
  | st, [], ctx => (st, ctx, Option.none)
  | st, step :: rest, ctx =>
    match execute_step env st step ctx with
    | (st', Except.error e) => (st', ctx, some e)
    | (st', Except.ok result) =>
      execute_sequential_steps env st' rest (storeStepOutput ctx step result)

/-- The `asyncio.gather(*tasks, return_exceptions=True)` phase of
`execute_parallel_steps` (lines 331-333): every nested step runs against the
same pre-group context (the context is only written after the gather), and
every step runs to completion — results and exceptions are collected, not
raised.  Engine-state updates are threaded in declaration order. -/
def gatherSteps (env : Env) :
    EngineSt → List WorkflowStep → WorkflowContext → EngineSt × List (Except PyErr Value)
  | st, [], _ => (st, [])
  | st, step :: rest, ctx =>
    let (st', r) := execute_step env st step ctx
    let (st'', rs) := gatherSteps env st' rest ctx
    (st'', r :: rs)

/-- The post-gather loop of `execute_parallel_steps` (lines 335-343): walk
steps and results in declaration order; the first exception encountered is
re-raised as a `RuntimeError` naming that step, and no result at or after
that position is stored. -/
def storeParallelResults :
    List WorkflowStep → List (Except PyErr Value) → WorkflowContext →
      WorkflowContext × Option PyErr
  | [], _, ctx => (ctx, Option.none)
  | _ :: _, [], ctx => (ctx, Option.none)
  | step :: steps, r :: rs, ctx =>
    match r with
    | Except.error e =>
      (ctx, some (PyErr.runtimeError ("Step " ++ step.id ++ " failed: " ++ e.msg)))
    | Except.ok result => storeParallelResults steps rs (storeStepOutput ctx step result)

/-- `WorkflowEngine.execute_parallel_steps` (lines 316-346): gather all
results, then store them in declaration order up to the first failure. -/
def execute_parallel_steps (env : Env) (st : EngineSt) (steps : List WorkflowStep)
    (ctx : WorkflowContext) : StepResult :=
  let (st', results) := gatherSteps env st steps ctx
  let (ctx', err) := storeParallelResults steps results ctx
  (st', ctx', err)

/-- The branch-execution loop shared by conditional and switch steps
(lines 393-397 and 447-451): each nested step is executed with
`execute_step` and its result stored raw — `set_step_output(branch_step.id,
result)` ignores the nested step's `outputs` name. -/
def runBranchSteps (env : Env) :
    EngineSt → List WorkflowStep → WorkflowContext → StepResult
  | st, [], ctx => (st, ctx, Option.none)
  | st, step :: rest, ctx =>
    match execute_step env st step ctx with
    | (st', Except.error e) => (st', ctx, some e)
    | (st', Except.ok result) =>
      runBranchSteps env st' rest (ctx.set_step_output step.id result)

/-- `WorkflowEngine.execute_conditional_step` (lines 348-398): a falsy
`condition` or falsy `branches` raises `ValueError` before anything runs;
otherwise the condition template is resolved (exceptions propagate), its
truthiness selects `if_true` or `if_false` (missing key: empty list), and the
selected branch runs. -/
def execute_conditional_step (env : Env) (st : EngineSt) (step : WorkflowStep)
    (ctx : WorkflowContext) : StepResult :=
  match step.condition with
  | Option.none =>
    (st, ctx, some (PyErr.valueError ("Conditional step " ++ step.id ++ " missing condition")))
  | some c =>
    if c = "" then
      (st, ctx, some (PyErr.valueError ("Conditional step " ++ step.id ++ " missing condition")))
    else
      match step.branches with
      | Option.none =>
        (st, ctx, some (PyErr.valueError ("Conditional step " ++ step.id ++ " missing branches")))
      | some branches =>
        if branches.isEmpty then
          (st, ctx, some (PyErr.valueError ("Conditional step " ++ step.id ++ " missing branches")))
        else
          match ctx.resolve_expression (Value.str c) with
          | Except.error e => (st, ctx, some e)
          | Except.ok condition_result =>
            let branch_steps :=
              if truthy condition_result then (lookupStr branches "if_true").getD []
              else (lookupStr branches "if_false").getD []
            runBranchSteps env st branch_steps ctx

/-- `WorkflowEngine.execute_switch_step` (lines 400-452): a falsy `condition`
or falsy `branches` raises `ValueError`; otherwise the condition is resolved
(exceptions propagate) and stringified with `str()`.  The branch list is
`branches.get(matched) or branches.get("default", [])` — a missing or empty
matched case falls through to the default.  An empty selection is a silent
no-op. -/
def execute_switch_step (env : Env) (st : EngineSt) (step : WorkflowStep)
    (ctx : WorkflowContext) : StepResult :=
  match step.condition with
  | Option.none =>
    (st, ctx, some (PyErr.valueError ("Switch step " ++ step.id ++ " missing condition expression")))
  | some c =>
    if c = "" then
      (st, ctx, some (PyErr.valueError ("Switch step " ++ step.id ++ " missing condition expression")))
    else
      match step.branches with
      | Option.none =>
        (st, ctx, some (PyErr.valueError ("Switch step " ++ step.id ++ " missing branches")))
      | some branches =>
        if branches.isEmpty then
          (st, ctx, some (PyErr.valueError ("Switch step " ++ step.id ++ " missing branches")))
        else
          match ctx.resolve_expression (Value.str c) with
          | Except.error e => (st, ctx, some e)
          | Except.ok switch_value =>
            let matched_case := pyStr switch_value
            let branch_steps :=
              match lookupStr branches matched_case with
              | some l => if l.isEmpty then (lookupStr branches "default").getD [] else l
              | Option.none => (lookupStr branches "default").getD []
            if branch_steps.isEmpty then (st, ctx, Option.none)
            else runBranchSteps env st branch_steps ctx

/-- One iteration of the `execute_workflow` loop (lines 480-521), dispatching
on `step_type`: sequential steps run `execute_step` and store with the
namespacing rule; parallel steps require a truthy `branches` containing a
`steps` key and run the group; conditional and switch steps delegate to their
handlers.  The exception handler only logs and re-raises. -/
def runStep (env : Env) (st : EngineSt) (step : WorkflowStep)
    (ctx : WorkflowContext) : StepResult :=
  match step.step_type with
  | StepType.sequential =>
    match execute_step env st step ctx with
    | (st', Except.error e) => (st', ctx, some e)
    | (st', Except.ok result) => (st', storeStepOutput ctx step result, Option.none)
  | StepType.parallel =>
    match step.branches with
    | Option.none =>
      (st, ctx, some (PyErr.valueError
        ("Parallel step " ++ step.id ++ " missing " ++ sq ++ "steps" ++ sq ++ " in branches")))
    | some branches =>
      if branches.isEmpty then
        (st, ctx, some (PyErr.valueError
          ("Parallel step " ++ step.id ++ " missing " ++ sq ++ "steps" ++ sq ++ " in branches")))
      else
        match lookupStr branches "steps" with
        | Option.none =>
          (st, ctx, some (PyErr.valueError
            ("Parallel step " ++ step.id ++ " missing " ++ sq ++ "steps" ++ sq ++ " in branches")))
        | some parallel_steps => execute_parallel_steps env st parallel_steps ctx
  | StepType.conditional => execute_conditional_step env st step ctx
  | StepType.switch => execute_switch_step env st step ctx

/-- The top-level step loop of `execute_workflow` (lines 480-521): process
the steps in declaration order; the first exception aborts the loop with the
context as it stands at that moment. -/
def executeSteps (env : Env) :
    EngineSt → List WorkflowStep → WorkflowContext → StepResult
  | st, [], ctx => (st, ctx, Option.none)
  | st, step :: rest, ctx =>
    match runStep env st step ctx with
    | (st', ctx', some e) => (st', ctx', some e)
    | (st', ctx', Option.none) => executeSteps env st' rest ctx'

/-- `WorkflowEngine.execute_workflow` (lines 454-528): build a fresh context
from the initial input and walk the step list. -/
def execute_workflow (env : Env) (st : EngineSt) (workflow : WorkflowDefinition)
    (initial_input : List (String × Value)) : StepResult :=
  executeSteps env st workflow.steps ⟨initial_input, []⟩

/-- Store a list of parallel results in declaration order with the
namespacing rule — the successful path of the post-gather loop. -/
def foldStores : List WorkflowStep → List Value → WorkflowContext → WorkflowContext
  | step :: steps, v :: vs, ctx => foldStores steps vs (storeStepOutput ctx step v)
  | _, _, ctx => ctx

/-- The context record the specification promises for a completed step
(amended for the truthiness check the code performs): the result namespaced
under the step's outputs name when that name is present and non-empty, raw
otherwise, wrapped in the `outputs` envelope of `set_step_output`. -/
def claimStoredRecord (step : WorkflowStep) (result : Value) : Value :=
  Value.dict [("outputs",
    match step.outputs with
    | some name => if name = "" then result else Value.dict [(name, result)]
    | Option.none => result)]

/-- Spec-side recursion shape of `resolveInputs` on sequence values, written
from the specification's words: `resolveExpression` applied to exactly the
string elements, every other element passed through unresolved. -/
def resolveSeqSpec (ctx : WorkflowContext) : List Value → Except PyErr (List Value)
  | [] => pure []
  | v :: rest => do
    let v' ←
      match v with
      | Value.str s => ctx.resolve_expression (Value.str s)
      | other => pure other
    let rest' ← resolveSeqSpec ctx rest
    pure (v' :: rest')

mutual

/-- Spec-side treatment of one mapping value, written from the
specification's words: a string value is passed through `resolveExpression`,
a nested mapping value is recursively resolved the same way, a sequence value
goes through `resolveSeqSpec`, every other value type passes through
unchanged. -/
def resolveValueSpec (ctx : WorkflowContext) : Value → Except PyErr Value
  | Value.str s => ctx.resolve_expression (Value.str s)
  | Value.dict d => do
    let d' ← resolveInputsSpec ctx d
    pure (Value.dict d')
  | Value.list l => do
    let l' ← resolveSeqSpec ctx l
    pure (Value.list l')
  | v => pure v

/-- Spec-side recursion shape of `resolveInputs`: a new mapping with every
value treated by `resolveValueSpec`, entries in order. -/
def resolveInputsSpec (ctx : WorkflowContext) :
    List (String × Value) → Except PyErr (List (String × Value))
  | [] => pure []
  | (key, v) :: rest => do
    let v' ← resolveValueSpec ctx v
    let rest' ← resolveInputsSpec ctx rest
    pure ((key, v') :: rest')

end

theorem lookupStr_dictSet_self {α : Type} (d : List (String × α)) (k : String) (v : α) :
    lookupStr (dictSet d k v) k = some v := by
  induction d with
  | nil => simp [dictSet, lookupStr]
  | cons hd tl ih =>
    obtain ⟨k', v'⟩ := hd
    by_cases h : k' = k <;> simp [dictSet, lookupStr, h, ih]

theorem lookupStr_dictSet_ne {α : Type} (d : List (String × α)) (k key : String) (v : α)
    (h : k ≠ key) : lookupStr (dictSet d key v) k = lookupStr d k := by
  induction d with
  | nil => simp [dictSet, lookupStr, Ne.symm h]
  | cons hd tl ih =>
    obtain ⟨k', v'⟩ := hd
    by_cases hk : k' = key
    · subst hk
      simp [dictSet, lookupStr, Ne.symm h]
    · simp only [dictSet, if_neg hk, lookupStr]
      by_cases hk2 : k' = k <;> simp [hk2, ih]

theorem lookupStr_dictSet_isSome {α : Type} (d : List (String × α)) (k key : String) (v : α)
    (h : (lookupStr d k).isSome) : (lookupStr (dictSet d key v) k).isSome := by
  by_cases hk : k = key
  · subst hk
    simp [lookupStr_dictSet_self]
  · rw [lookupStr_dictSet_ne d k key v hk]
    exact h

theorem set_step_output_lookup_self (ctx : WorkflowContext) (i : String) (v : Value) :
    lookupStr (ctx.set_step_output i v).step_outputs i = some (Value.dict [("outputs", v)]) := by
  simp [WorkflowContext.set_step_output, lookupStr_dictSet_self]

theorem set_step_output_lookup_ne (ctx : WorkflowContext) (i : String) (v : Value)
    (k : String) (h : k ≠ i) :
    lookupStr (ctx.set_step_output i v).step_outputs k = lookupStr ctx.step_outputs k := by
  simp [WorkflowContext.set_step_output, lookupStr_dictSet_ne _ _ _ _ h]

theorem set_step_output_isSome (ctx : WorkflowContext) (i : String) (v : Value) (k : String)
    (h : (lookupStr ctx.step_outputs k).isSome) :
    (lookupStr (ctx.set_step_output i v).step_outputs k).isSome := by
  simp [WorkflowContext.set_step_output]
  exact lookupStr_dictSet_isSome _ _ _ _ h

theorem storeStepOutput_lookup_self (ctx : WorkflowContext) (s : WorkflowStep) (v : Value) :
    lookupStr (storeStepOutput ctx s v).step_outputs s.id = some (claimStoredRecord s v) := by
  cases h : s.outputs with
  | none => simp [storeStepOutput, h, claimStoredRecord, set_step_output_lookup_self]
  | some name =>
    by_cases hn : name = "" <;>
      simp [storeStepOutput, h, hn, claimStoredRecord, set_step_output_lookup_self]

theorem storeStepOutput_lookup_ne (ctx : WorkflowContext) (s : WorkflowStep) (v : Value)
    (k : String) (h : k ≠ s.id) :
    lookupStr (storeStepOutput ctx s v).step_outputs k = lookupStr ctx.step_outputs k := by
  cases hs : s.outputs with
  | none => simp [storeStepOutput, hs, set_step_output_lookup_ne _ _ _ _ h]
  | some name =>
    by_cases hn : name = "" <;>
      simp [storeStepOutput, hs, hn, set_step_output_lookup_ne _ _ _ _ h]

theorem storeStepOutput_isSome (ctx : WorkflowContext) (s : WorkflowStep) (v : Value)
    (k : String) (h : (lookupStr ctx.step_outputs k).isSome) :
    (lookupStr (storeStepOutput ctx s v).step_outputs k).isSome := by
  cases hs : s.outputs with
  | none =>
    rw [show storeStepOutput ctx s v = ctx.set_step_output s.id v from by
      simp [storeStepOutput, hs]]
    exact set_step_output_isSome _ _ _ _ h
  | some name =>
    by_cases hn : name = ""
    · rw [show storeStepOutput ctx s v = ctx.set_step_output s.id v from by
        simp [storeStepOutput, hs, hn]]
      exact set_step_output_isSome _ _ _ _ h
    · rw [show storeStepOutput ctx s v = ctx.set_step_output s.id (Value.dict [(name, v)]) from by
        simp [storeStepOutput, hs, hn]]
      exact set_step_output_isSome _ _ _ _ h

/-- C2 (counterexample): the trimmed string
`"\x7b\x7b a.b \x7d\x7d trailing"` is not entirely of the template shape —
the spec says it is returned unchanged — yet `resolve_expression` resolves
its template prefix (Python `re.match` only anchors at the start) and returns
the not-found sentinel instead of the original string. -/
theorem resolve_expression_trailing_text_not_unchanged :
    (WorkflowContext.mk [] []).resolve_expression
        (Value.str "\x7b\x7b a.b \x7d\x7d trailing") ≠
      Except.ok (Value.str "\x7b\x7b a.b \x7d\x7d trailing") := by
  intro h
  rw [show (WorkflowContext.mk [] []).resolve_expression
        (Value.str "\x7b\x7b a.b \x7d\x7d trailing") = Except.ok Value.none from rfl] at h
  exact Value.noConfusion (Except.ok.inj h)

/-- C2 (amended): a string whose stripped form has no template match at its
start — in particular any string with extra text before the opening braces,
such as `"text \x7b\x7b incomplete"` — is returned unchanged by
`resolve_expression`; only a string whose stripped form begins with a
complete `\x7b\x7b expr \x7d\x7d` template is resolved (trailing text after
the closing braces does not prevent the match). -/
theorem resolve_expression_unmatched_unchanged (ctx : WorkflowContext) (s : String)
    (h : pyMatch s = Option.none) :
    ctx.resolve_expression (Value.str s) = Except.ok (Value.str s) := by
  simp [WorkflowContext.resolve_expression, h]

/-- Witness for the amended C2 theorem at the spec's own example
`"text \x7b\x7b incomplete"`. -/
theorem resolve_expression_unmatched_unchanged_witness :
    (WorkflowContext.mk [] []).resolve_expression (Value.str "text \x7b\x7b incomplete") =
      Except.ok (Value.str "text \x7b\x7b incomplete") :=
  resolve_expression_unmatched_unchanged (WorkflowContext.mk [] []) "text \x7b\x7b incomplete" rfl

/-- C4: `resolve_expression` is not total — on the single-segment templates
`"\x7b\x7b workflow \x7d\x7d"` and `"\x7b\x7b steps \x7d\x7d"` Python
evaluates `path[1]` on a one-element path and raises `IndexError`, for every
context, contradicting the function's own docstring ("Returns None if path
doesn't exist") and the claimed no-exception contract. -/
theorem resolve_expression_single_segment_raises (ctx : WorkflowContext) :
    ctx.resolve_expression (Value.str "\x7b\x7b workflow \x7d\x7d") =
        Except.error PyErr.indexError ∧
      ctx.resolve_expression (Value.str "\x7b\x7b steps \x7d\x7d") =
        Except.error PyErr.indexError :=
  ⟨rfl, rfl⟩

/-- C7: resolver root semantics.  `workflow.input.<rest>` navigates the
workflow input (`a.b` on `\x7ba: \x7bb: 7\x7d\x7d` yields `7`, the extra
segment `a.b.c` yields the sentinel); `steps.x.outputs.y` yields the sentinel
before any `set_step_output("x", ...)` and the recorded value afterwards. -/
theorem resolver_root_semantics :
    (∀ ctx : WorkflowContext,
      ctx.workflow_input = [("a", Value.dict [("b", Value.int 7)])] →
        ctx.resolve_expression (Value.str "\x7b\x7b workflow.input.a.b \x7d\x7d") =
            Except.ok (Value.int 7) ∧
          ctx.resolve_expression (Value.str "\x7b\x7b workflow.input.a.b.c \x7d\x7d") =
            Except.ok Value.none) ∧
      (∀ ctx : WorkflowContext, lookupStr ctx.step_outputs "x" = Option.none →
        ctx.resolve_expression (Value.str "\x7b\x7b steps.x.outputs.y \x7d\x7d") =
          Except.ok Value.none) ∧
      (∀ ctx : WorkflowContext,
        (ctx.set_step_output "x" (Value.dict [("y", Value.str "v")])).resolve_expression
            (Value.str "\x7b\x7b steps.x.outputs.y \x7d\x7d") =
          Except.ok (Value.str "v")) := by
  refine ⟨?_, ?_, ?_⟩
  · rintro ⟨wi, so⟩ h
    simp only at h
    subst h
    exact ⟨rfl, rfl⟩
  · intro ctx h
    rw [show ctx.resolve_expression (Value.str "\x7b\x7b steps.x.outputs.y \x7d\x7d") =
        (match lookupStr ctx.step_outputs "x" with
         | Option.none => Except.ok Value.none
         | some data => Except.ok (navigate data ["outputs", "y"])) from rfl, h]
  · intro ctx
    rw [show (ctx.set_step_output "x" (Value.dict [("y", Value.str "v")])).resolve_expression
        (Value.str "\x7b\x7b steps.x.outputs.y \x7d\x7d") =
        (match lookupStr (dictSet ctx.step_outputs "x"
            (Value.dict [("outputs", Value.dict [("y", Value.str "v")])])) "x" with
         | Option.none => Except.ok Value.none
         | some data => Except.ok (navigate data ["outputs", "y"])) from rfl,
      lookupStr_dictSet_self]
    rfl

/-- Witness for C7 at concrete contexts. -/
theorem resolver_root_semantics_witness :
    (WorkflowContext.mk [("a", Value.dict [("b", Value.int 7)])] []).resolve_expression
        (Value.str "\x7b\x7b workflow.input.a.b \x7d\x7d") = Except.ok (Value.int 7) ∧
      (WorkflowContext.mk [] []).resolve_expression
        (Value.str "\x7b\x7b steps.x.outputs.y \x7d\x7d") = Except.ok Value.none ∧
      ((WorkflowContext.mk [] []).set_step_output "x"
            (Value.dict [("y", Value.str "v")])).resolve_expression
        (Value.str "\x7b\x7b steps.x.outputs.y \x7d\x7d") = Except.ok (Value.str "v") :=
  ⟨(resolver_root_semantics.1 (WorkflowContext.mk [("a", Value.dict [("b", Value.int 7)])] [])
      rfl).1,
    resolver_root_semantics.2.1 (WorkflowContext.mk [] []) rfl,
    resolver_root_semantics.2.2 (WorkflowContext.mk [] [])⟩

theorem resolve_list_elems_eq_spec (ctx : WorkflowContext) (l : List Value) :
    resolve_list_elems ctx l = resolveSeqSpec ctx l := by
  induction l with
  | nil => simp [resolve_list_elems, resolveSeqSpec, pure, Except.pure]
  | cons v rest ih =>
    cases v with
    | str s =>
      simp only [resolve_list_elems, resolveSeqSpec, ih, bind, Except.bind, pure, Except.pure]
      cases ctx.resolve_expression (Value.str s) with
      | error e => rfl
      | ok v' => cases resolveSeqSpec ctx rest <;> rfl
    | none =>
      simp only [resolve_list_elems, resolveSeqSpec, ih, bind, Except.bind, pure, Except.pure]
      cases resolveSeqSpec ctx rest <;> rfl
    | bool b =>
      simp only [resolve_list_elems, resolveSeqSpec, ih, bind, Except.bind, pure, Except.pure]
      cases resolveSeqSpec ctx rest <;> rfl
    | int n =>
      simp only [resolve_list_elems, resolveSeqSpec, ih, bind, Except.bind, pure, Except.pure]
      cases resolveSeqSpec ctx rest <;> rfl
    | list l =>
      simp only [resolve_list_elems, resolveSeqSpec, ih, bind, Except.bind, pure, Except.pure]
      cases resolveSeqSpec ctx rest <;> rfl
    | dict d =>
      simp only [resolve_list_elems, resolveSeqSpec, ih, bind, Except.bind, pure, Except.pure]
      cases resolveSeqSpec ctx rest <;> rfl

/-- C8: `resolve_inputs` has exactly the recursion shape the specification
describes — string values through `resolveExpression`, nested mapping values
recursively, sequence values elementwise on exactly their string elements
(non-string elements, nested mappings included, untouched), all other values
unchanged. -/
theorem resolve_inputs_recursion_shape (ctx : WorkflowContext) :
    ∀ l, ctx.resolve_inputs l = resolveInputsSpec ctx l
  | [] => by simp [WorkflowContext.resolve_inputs, resolveInputsSpec, pure, Except.pure]
  | (key, Value.str s) :: rest => by
    have ih := resolve_inputs_recursion_shape ctx rest
    simp only [WorkflowContext.resolve_inputs, resolveInputsSpec, resolveValueSpec,
      bind, Except.bind, pure, Except.pure, ih]
    cases ctx.resolve_expression (Value.str s) with
    | error e => rfl
    | ok v' => cases resolveInputsSpec ctx rest <;> rfl
  | (key, Value.dict d) :: rest => by
    have ihd := resolve_inputs_recursion_shape ctx d
    have ih := resolve_inputs_recursion_shape ctx rest
    simp only [WorkflowContext.resolve_inputs, resolveInputsSpec, resolveValueSpec,
      bind, Except.bind, pure, Except.pure, ihd, ih]
    cases resolveInputsSpec ctx d with
    | error e => rfl
    | ok d' => cases resolveInputsSpec ctx rest <;> rfl
  | (key, Value.list l) :: rest => by
    have ih := resolve_inputs_recursion_shape ctx rest
    simp only [WorkflowContext.resolve_inputs, resolveInputsSpec, resolveValueSpec,
      bind, Except.bind, pure, Except.pure, resolve_list_elems_eq_spec, ih]
    cases resolveSeqSpec ctx l with
    | error e => rfl
    | ok l' => cases resolveInputsSpec ctx rest <;> rfl
  | (key, Value.none) :: rest => by
    have ih := resolve_inputs_recursion_shape ctx rest
    simp only [WorkflowContext.resolve_inputs, resolveInputsSpec, resolveValueSpec,
      bind, Except.bind, pure, Except.pure, ih]
    cases resolveInputsSpec ctx rest <;> rfl
  | (key, Value.bool b) :: rest => by
    have ih := resolve_inputs_recursion_shape ctx rest
    simp only [WorkflowContext.resolve_inputs, resolveInputsSpec, resolveValueSpec,
      bind, Except.bind, pure, Except.pure, ih]
    cases resolveInputsSpec ctx rest <;> rfl
  | (key, Value.int n) :: rest => by
    have ih := resolve_inputs_recursion_shape ctx rest
    simp only [WorkflowContext.resolve_inputs, resolveInputsSpec, resolveValueSpec,
      bind, Except.bind, pure, Except.pure, ih]
    cases resolveInputsSpec ctx rest <;> rfl

theorem discover_trace (env : Env) (st : EngineSt) (sk : String) :
    (discover_agent_for_skill env st sk).1.trace = st.trace := by
  unfold discover_agent_for_skill
  split
  · rfl
  · split
    · rfl
    · split <;> rfl

theorem execute_step_trace (env : Env) (st : EngineSt) (s : WorkflowStep)
    (ctx : WorkflowContext) :
    (execute_step env st s ctx).1.trace = st.trace ∨
      (execute_step env st s ctx).1.trace = st.trace ++ [s.id] := by
  unfold execute_step
  split
  · exact Or.inl rfl
  · split
    · rename_i st1 e heq
      left
      have := discover_trace env st s.skill
      rw [heq] at this
      exact this
    · rename_i st1 url heq
      right
      have htr : st1.trace = st.trace := by
        have := discover_trace env st s.skill
        rw [heq] at this
        exact this
      split <;> simp [htr]

theorem runBranchSteps_mono (env : Env) :
    ∀ (bs : List WorkflowStep) (st : EngineSt) (ctx : WorkflowContext) (k : String),
      (lookupStr ctx.step_outputs k).isSome →
        (lookupStr ((runBranchSteps env st bs ctx).2.1).step_outputs k).isSome
  | [], st, ctx, k, hk => hk
  | s :: rest, st, ctx, k, hk => by
    simp only [runBranchSteps]
    rcases hE : execute_step env st s ctx with ⟨st1, r⟩
    cases r with
    | error e => simpa using hk
    | ok result =>
      simpa using runBranchSteps_mono env rest st1 (ctx.set_step_output s.id result) k
        (set_step_output_isSome ctx s.id result k hk)

theorem storeParallelResults_mono :
    ∀ (steps : List WorkflowStep) (rs : List (Except PyErr Value)) (ctx : WorkflowContext)
      (k : String), (lookupStr ctx.step_outputs k).isSome →
        (lookupStr ((storeParallelResults steps rs ctx).1).step_outputs k).isSome
  | [], rs, ctx, k, hk => hk
  | _ :: _, [], ctx, k, hk => hk
  | s :: steps, r :: rs, ctx, k, hk => by
    cases r with
    | error e => simpa [storeParallelResults] using hk
    | ok v =>
      simpa [storeParallelResults] using
        storeParallelResults_mono steps rs (storeStepOutput ctx s v) k
          (storeStepOutput_isSome ctx s v k hk)

theorem execute_parallel_steps_mono (env : Env) (st : EngineSt)
    (steps : List WorkflowStep) (ctx : WorkflowContext) (k : String)
    (hk : (lookupStr ctx.step_outputs k).isSome) :
    (lookupStr ((execute_parallel_steps env st steps ctx).2.1).step_outputs k).isSome := by
  unfold execute_parallel_steps
  rcases hG : gatherSteps env st steps ctx with ⟨stg, results⟩
  simpa using storeParallelResults_mono steps results ctx k hk

theorem ite_branch_mono (env : Env) (st : EngineSt) (ctx : WorkflowContext) (k : String)
    (bsteps : List WorkflowStep) (hk : (lookupStr ctx.step_outputs k).isSome) :
    (lookupStr ((if bsteps.isEmpty then (st, ctx, (Option.none : Option PyErr))
        else runBranchSteps env st bsteps ctx).2.1).step_outputs k).isSome := by
  split
  · simpa using hk
  · exact runBranchSteps_mono env bsteps st ctx k hk

theorem execute_conditional_step_mono (env : Env) (st : EngineSt) (step : WorkflowStep)
    (ctx : WorkflowContext) (k : String)
    (hk : (lookupStr ctx.step_outputs k).isSome) :
    (lookupStr ((execute_conditional_step env st step ctx).2.1).step_outputs k).isSome := by
  unfold execute_conditional_step
  repeat' split
  all_goals first
    | simpa using hk
    | exact runBranchSteps_mono env _ st ctx k hk

theorem execute_switch_step_mono (env : Env) (st : EngineSt) (step : WorkflowStep)
    (ctx : WorkflowContext) (k : String)
    (hk : (lookupStr ctx.step_outputs k).isSome) :
    (lookupStr ((execute_switch_step env st step ctx).2.1).step_outputs k).isSome := by
  unfold execute_switch_step
  repeat' split
  all_goals first
    | simpa using hk
    | exact runBranchSteps_mono env _ st ctx k hk
    | exact ite_branch_mono env st ctx k _ hk

theorem runStep_mono (env : Env) (st : EngineSt) (step : WorkflowStep)
    (ctx : WorkflowContext) (k : String)
    (hk : (lookupStr ctx.step_outputs k).isSome) :
    (lookupStr ((runStep env st step ctx).2.1).step_outputs k).isSome := by
  unfold runStep
  repeat' split
  all_goals first
    | simpa using hk
    | exact execute_conditional_step_mono env st step ctx k hk
    | exact execute_switch_step_mono env st step ctx k hk
    | exact execute_parallel_steps_mono env st _ ctx k hk
    | simpa using storeStepOutput_isSome ctx step _ k hk

theorem executeSteps_append (env : Env) :
    ∀ (l1 l2 : List WorkflowStep) (st : EngineSt) (ctx : WorkflowContext),
      executeSteps env st (l1 ++ l2) ctx =
        (match executeSteps env st l1 ctx with
         | (st', ctx', some e) => (st', ctx', some e)
         | (st', ctx', Option.none) => executeSteps env st' l2 ctx')
  | [], l2, st, ctx => rfl
  | s :: l1, l2, st, ctx => by
    simp only [List.cons_append, executeSteps]
    rcases hR : runStep env st s ctx with ⟨st1, ctx1, err⟩
    cases err with
    | none => simpa using executeSteps_append env l1 l2 st1 ctx1
    | some e => rfl

/-- C1: fail-fast abort without rollback.  If the steps before `s` complete
cleanly and `s` (of any step type, so a failure at any nesting depth
surfaces here) fails with exception `e`, the whole `execute_workflow` run
yields exactly that failure state — the first encountered error is raised,
nothing after `s` executes, the engine state is the failing step's state (no
retry) — and every `step_outputs` entry present before the failing step is
still present in the context at the moment of abort. -/
theorem fail_fast_abort (env : Env) (st0 : EngineSt) (wf : WorkflowDefinition)
    (input : List (String × Value)) (pre : List WorkflowStep) (s : WorkflowStep)
    (rest : List WorkflowStep) (st1 st2 : EngineSt) (ctx1 ctx2 : WorkflowContext)
    (e : PyErr) (hsteps : wf.steps = pre ++ s :: rest)
    (hpre : executeSteps env st0 pre (WorkflowContext.mk input []) =
      (st1, ctx1, Option.none))
    (hfail : runStep env st1 s ctx1 = (st2, ctx2, some e)) :
    execute_workflow env st0 wf input = (st2, ctx2, some e) ∧
      ∀ k, (lookupStr ctx1.step_outputs k).isSome →
        (lookupStr ctx2.step_outputs k).isSome := by
  constructor
  · unfold execute_workflow
    rw [hsteps, executeSteps_append env pre (s :: rest) st0 (WorkflowContext.mk input []),
      hpre]
    simp only [executeSteps, hfail]
  · intro k hk
    have := runStep_mono env st1 s ctx1 k hk
    rw [hfail] at this
    simpa using this

/-- Witness for C1: a three-step workflow whose second step's skill fails
remotely; the run aborts with the second step's error, the first step's
output is still recorded, and the third step never executes. -/
theorem fail_fast_abort_witness :
    execute_workflow
        (Env.mk (fun _ => some "http://agent")
          (fun _ sk _ =>
            if sk = "bad" then InvokeResult.fail "boom"
            else InvokeResult.ok (Value.int 1)))
        initEngine
        (WorkflowDefinition.mk (WorkflowMetadata.mk "w" "w" "1.0.0" "" [])
          [WorkflowStep.mk "s1" "a" [] Option.none (some 300) StepType.sequential
              Option.none Option.none,
            WorkflowStep.mk "s2" "bad" [] Option.none (some 300) StepType.sequential
              Option.none Option.none,
            WorkflowStep.mk "s3" "c" [] Option.none (some 300) StepType.sequential
              Option.none Option.none]
          Option.none)
        [] =
      (EngineSt.mk [("a", "http://agent"), ("bad", "http://agent")] ["a", "bad"]
          ["s1", "s2"],
        WorkflowContext.mk [] [("s1", Value.dict [("outputs", Value.int 1)])],
        some (PyErr.runtimeError "Step s2 failed: boom")) ∧
      (lookupStr (WorkflowContext.mk []
          [("s1", Value.dict [("outputs", Value.int 1)])]).step_outputs "s1").isSome := by
  constructor
  · exact (fail_fast_abort _ _ _ _
      [WorkflowStep.mk "s1" "a" [] Option.none (some 300) StepType.sequential
          Option.none Option.none]
      (WorkflowStep.mk "s2" "bad" [] Option.none (some 300) StepType.sequential
        Option.none Option.none)
      [WorkflowStep.mk "s3" "c" [] Option.none (some 300) StepType.sequential
        Option.none Option.none]
      (EngineSt.mk [("a", "http://agent")] ["a"] ["s1"])
      (EngineSt.mk [("a", "http://agent"), ("bad", "http://agent")] ["a", "bad"]
        ["s1", "s2"])
      (WorkflowContext.mk [] [("s1", Value.dict [("outputs", Value.int 1)])])
      (WorkflowContext.mk [] [("s1", Value.dict [("outputs", Value.int 1)])])
      (PyErr.runtimeError "Step s2 failed: boom") rfl
      (by simp [executeSteps, runStep, execute_step, WorkflowContext.resolve_inputs,
        WorkflowStep.inputs, WorkflowStep.skill, WorkflowStep.id, WorkflowStep.step_type,
        WorkflowStep.outputs, discover_agent_for_skill, initEngine, lookupStr, dictSet,
        storeStepOutput, WorkflowContext.set_step_output])
      (by simp [runStep, execute_step, WorkflowContext.resolve_inputs,
        WorkflowStep.inputs, WorkflowStep.skill, WorkflowStep.id, WorkflowStep.step_type,
        WorkflowStep.outputs, discover_agent_for_skill, lookupStr, dictSet,
        storeStepOutput, WorkflowContext.set_step_output])).1
  · rfl

/-- C9: skill-endpoint resolution.  A cached skill id resolves to the cached
URL without consulting discovery (the discovery-call log and the whole state
are untouched); a cache miss consults discovery exactly once, memoizes a
found URL, and a second resolution of the same skill id then returns the
cached URL with the state — including the discovery-call log — unchanged; a
miss that discovery cannot locate (no URL, or a falsy empty URL) raises
`ValueError`, and a step requesting such a skill fails with that error. -/
theorem skill_endpoint_resolution (env : Env) (st : EngineSt) (skill_id : String) :
    (∀ url, lookupStr st.agent_cache skill_id = some url →
        discover_agent_for_skill env st skill_id = (st, Except.ok url)) ∧
      (∀ url, lookupStr st.agent_cache skill_id = Option.none →
        env.discover skill_id = some url → url ≠ "" →
          discover_agent_for_skill env st skill_id =
              (EngineSt.mk (dictSet st.agent_cache skill_id url)
                (st.disc_calls ++ [skill_id]) st.trace, Except.ok url) ∧
            discover_agent_for_skill env
                ((discover_agent_for_skill env st skill_id).1) skill_id =
              ((discover_agent_for_skill env st skill_id).1, Except.ok url)) ∧
      (lookupStr st.agent_cache skill_id = Option.none →
        (env.discover skill_id = Option.none ∨ env.discover skill_id = some "") →
          discover_agent_for_skill env st skill_id =
            ({ st with disc_calls := st.disc_calls ++ [skill_id] },
              Except.error (PyErr.valueError ("No agent found for skill: " ++ skill_id)))) ∧
      (∀ (step : WorkflowStep) (ctx : WorkflowContext) ri,
        step.skill = skill_id → ctx.resolve_inputs step.inputs = Except.ok ri →
          lookupStr st.agent_cache skill_id = Option.none →
            env.discover skill_id = Option.none →
              execute_step env st step ctx =
                ({ st with disc_calls := st.disc_calls ++ [skill_id] },
                  Except.error
                    (PyErr.valueError ("No agent found for skill: " ++ skill_id)))) := by
  refine ⟨?_, ?_, ?_, ?_⟩
  · intro url hc
    unfold discover_agent_for_skill
    rw [hc]
  · intro url hc hd hne
    have h1 : discover_agent_for_skill env st skill_id =
        (EngineSt.mk (dictSet st.agent_cache skill_id url)
          (st.disc_calls ++ [skill_id]) st.trace, Except.ok url) := by
      unfold discover_agent_for_skill
      rw [hc, hd]
      simp [hne]
    refine ⟨h1, ?_⟩
    rw [h1]
    unfold discover_agent_for_skill
    rw [show lookupStr (dictSet st.agent_cache skill_id url) skill_id = some url from
      lookupStr_dictSet_self _ _ _]
  · intro hc hd
    unfold discover_agent_for_skill
    rw [hc]
    rcases hd with hd | hd <;> simp [hd]
  · intro step ctx ri hskill hri hc hd
    unfold execute_step
    rw [hri, hskill]
    have : discover_agent_for_skill env st skill_id =
        ({ st with disc_calls := st.disc_calls ++ [skill_id] },
          Except.error (PyErr.valueError ("No agent found for skill: " ++ skill_id))) := by
      unfold discover_agent_for_skill
      rw [hc, hd]
    rw [this]

/-- Witness for C9 with a concrete discovery oracle: skill `"s"` resolves to
`"http://u"`, is memoized, and resolves again from the cache; skill `"t"` is
unknown and raises. -/
theorem skill_endpoint_resolution_witness :
    discover_agent_for_skill
        (Env.mk (fun sk => if sk = "s" then some "http://u" else Option.none)
          (fun _ _ _ => InvokeResult.ok Value.none))
        initEngine "s" =
      (EngineSt.mk [("s", "http://u")] ["s"] [], Except.ok "http://u") ∧
      discover_agent_for_skill
          (Env.mk (fun sk => if sk = "s" then some "http://u" else Option.none)
            (fun _ _ _ => InvokeResult.ok Value.none))
          (EngineSt.mk [("s", "http://u")] ["s"] []) "s" =
        (EngineSt.mk [("s", "http://u")] ["s"] [], Except.ok "http://u") ∧
      discover_agent_for_skill
          (Env.mk (fun sk => if sk = "s" then some "http://u" else Option.none)
            (fun _ _ _ => InvokeResult.ok Value.none))
          initEngine "t" =
        (EngineSt.mk [] ["t"] [],
          Except.error (PyErr.valueError "No agent found for skill: t")) := by
  refine ⟨?_, ?_, ?_⟩
  · exact ((skill_endpoint_resolution _ initEngine "s").2.1 "http://u" rfl rfl
      (by simp)).1
  · exact (skill_endpoint_resolution _ (EngineSt.mk [("s", "http://u")] ["s"] []) "s").1
      "http://u" rfl
  · exact (skill_endpoint_resolution _ initEngine "t").2.2.1 rfl (Or.inl rfl)

theorem gather_length (env : Env) :
    ∀ (steps : List WorkflowStep) (st : EngineSt) (ctx : WorkflowContext),
      (gatherSteps env st steps ctx).2.length = steps.length
  | [], _, _ => rfl
  | s :: rest, st, ctx => by
    simp only [gatherSteps]
    rcases hE : execute_step env st s ctx with ⟨st1, r⟩
    rcases hG : gatherSteps env st1 rest ctx with ⟨st2, rs⟩
    have := gather_length env rest st1 ctx
    rw [hG] at this
    simpa using this

theorem storeParallel_split :
    ∀ (pre : List WorkflowStep) (vs : List Value) (s : WorkflowStep)
      (post : List WorkflowStep) (e : PyErr) (rs : List (Except PyErr Value))
      (ctx : WorkflowContext), vs.length = pre.length →
      storeParallelResults (pre ++ s :: post) (vs.map Except.ok ++ Except.error e :: rs)
          ctx =
        (foldStores pre vs ctx,
          some (PyErr.runtimeError ("Step " ++ s.id ++ " failed: " ++ PyErr.msg e)))
  | [], [], s, post, e, rs, ctx, _ => by
    simp [storeParallelResults, foldStores]
  | [], v :: vs, s, post, e, rs, ctx, h => by simp at h
  | p :: pre, [], s, post, e, rs, ctx, h => by simp at h
  | p :: pre, v :: vs, s, post, e, rs, ctx, h => by
    simp only [List.cons_append, List.map_cons, storeParallelResults, foldStores]
    exact storeParallel_split pre vs s post e rs (storeStepOutput ctx p v)
      (by simpa using h)

theorem storeParallel_all_ok :
    ∀ (ns : List WorkflowStep) (vs : List Value) (ctx : WorkflowContext),
      storeParallelResults ns (vs.map Except.ok) ctx = (foldStores ns vs ctx, Option.none)
  | [], vs, ctx => by cases vs <;> rfl
  | n :: ns, [], ctx => rfl
  | n :: ns, v :: vs, ctx => by
    simp only [List.map_cons, storeParallelResults, foldStores]
    exact storeParallel_all_ok ns vs (storeStepOutput ctx n v)

/-- C10: parallel failure handling is deterministic in declaration order.
First, when the gather phase (which always produces one result per nested
step — second conjunct: every nested step runs to completion before any
result is inspected) yields successes for the steps before `s` in
declaration order and an exception for `s`, the parallel group stores
exactly the outputs of the steps preceding `s`, stores nothing for `s` or
any later step, and raises a `RuntimeError` naming `s` — the first failing
step in declaration order. -/
theorem parallel_first_failure_declaration_order :
    (∀ (env : Env) (st : EngineSt) (ctx : WorkflowContext) (pre : List WorkflowStep)
      (s : WorkflowStep) (post : List WorkflowStep) (vs : List Value) (e : PyErr)
      (rs : List (Except PyErr Value)) (st' : EngineSt),
      gatherSteps env st (pre ++ s :: post) ctx =
        (st', vs.map Except.ok ++ Except.error e :: rs) →
      vs.length = pre.length →
      execute_parallel_steps env st (pre ++ s :: post) ctx =
        (st', foldStores pre vs ctx,
          some (PyErr.runtimeError ("Step " ++ s.id ++ " failed: " ++ PyErr.msg e)))) ∧
      (∀ (env : Env) (st : EngineSt) (steps : List WorkflowStep) (ctx : WorkflowContext),
        (gatherSteps env st steps ctx).2.length = steps.length) := by
  constructor
  · intro env st ctx pre s post vs e rs st' hg hlen
    unfold execute_parallel_steps
    rw [hg]
    simp only
    rw [storeParallel_split pre vs s post e rs ctx hlen]
  · intro env st steps ctx
    exact gather_length env steps st ctx

/-- Witness for C10: three parallel steps, the second fails; the first
step's output is stored, the third's is not, and the error names the second
step (its exception message is re-wrapped by the group loop). -/
theorem parallel_first_failure_declaration_order_witness :
    execute_parallel_steps
        (Env.mk (fun _ => some "u")
          (fun _ sk _ =>
            if sk = "bad" then InvokeResult.fail "boom" else InvokeResult.ok (Value.int 1)))
        initEngine
        [WorkflowStep.mk "p1" "a" [] Option.none (some 300) StepType.sequential
            Option.none Option.none,
          WorkflowStep.mk "p2" "bad" [] Option.none (some 300) StepType.sequential
            Option.none Option.none,
          WorkflowStep.mk "p3" "c" [] Option.none (some 300) StepType.sequential
            Option.none Option.none]
        (WorkflowContext.mk [] []) =
      (EngineSt.mk [("a", "u"), ("bad", "u"), ("c", "u")] ["a", "bad", "c"]
          ["p1", "p2", "p3"],
        foldStores
          [WorkflowStep.mk "p1" "a" [] Option.none (some 300) StepType.sequential
            Option.none Option.none]
          [Value.int 1] (WorkflowContext.mk [] []),
        some (PyErr.runtimeError "Step p2 failed: Step p2 failed: boom")) :=
  parallel_first_failure_declaration_order.1 _ initEngine (WorkflowContext.mk [] [])
    [WorkflowStep.mk "p1" "a" [] Option.none (some 300) StepType.sequential
      Option.none Option.none]
    (WorkflowStep.mk "p2" "bad" [] Option.none (some 300) StepType.sequential
      Option.none Option.none)
    [WorkflowStep.mk "p3" "c" [] Option.none (some 300) StepType.sequential
      Option.none Option.none]
    [Value.int 1] (PyErr.runtimeError "Step p2 failed: boom") [Except.ok (Value.int 1)]
    (EngineSt.mk [("a", "u"), ("bad", "u"), ("c", "u")] ["a", "bad", "c"]
      ["p1", "p2", "p3"])
    (by simp [gatherSteps, execute_step, WorkflowContext.resolve_inputs,
      WorkflowStep.inputs, WorkflowStep.skill, WorkflowStep.id,
      discover_agent_for_skill, initEngine, lookupStr, dictSet])
    (by simp)

theorem foldStores_lookup_not_mem :
    ∀ (ns : List WorkflowStep) (vs : List Value) (ctx : WorkflowContext) (k : String),
      k ∉ ns.map WorkflowStep.id →
        lookupStr (foldStores ns vs ctx).step_outputs k = lookupStr ctx.step_outputs k
  | [], vs, ctx, k, _ => rfl
  | n :: ns, [], ctx, k, _ => rfl
  | n :: ns, v :: vs, ctx, k, h => by
    simp only [List.map_cons, List.mem_cons, not_or] at h
    simp only [foldStores]
    rw [foldStores_lookup_not_mem ns vs _ k h.2]
    exact storeStepOutput_lookup_ne ctx n v k h.1

theorem foldStores_lookup_mem :
    ∀ (ns : List WorkflowStep) (vs : List Value) (ctx : WorkflowContext)
      (n : WorkflowStep) (v : Value), (ns.map WorkflowStep.id).Nodup →
      (n, v) ∈ ns.zip vs →
        lookupStr (foldStores ns vs ctx).step_outputs n.id =
          some (claimStoredRecord n v)
  | [], vs, ctx, n, v, _, hm => by simp at hm
  | m :: ns, [], ctx, n, v, _, hm => by simp at hm
  | m :: ns, w :: vs, ctx, n, v, hn, hm => by
    rw [List.map_cons] at hn
    obtain ⟨hhead, htail⟩ := List.nodup_cons.mp hn
    simp only [List.zip_cons_cons, List.mem_cons] at hm
    simp only [foldStores]
    rcases hm with hm | hm
    · have h1 : n = m := congrArg Prod.fst hm
      have h2 : v = w := congrArg Prod.snd hm
      subst h1
      subst h2
      rw [foldStores_lookup_not_mem ns vs _ _ hhead]
      exact storeStepOutput_lookup_self ctx n v
    · exact foldStores_lookup_mem ns vs _ n v htail hm

/-- C6 (counterexample): a sequential step whose `outputs` field is provided
as the empty string is stored raw (`\x7boutputs: result\x7d`), not
namespaced (`\x7boutputs: \x7b"": result\x7d\x7d`) as the claim's
"namespaced whenever `step.outputs` is provided" would require — the code
tests `if step.outputs:`, and the empty string is falsy. -/
theorem output_namespacing_empty_name_counterexample :
    (runStep (Env.mk (fun _ => some "u") (fun _ _ _ => InvokeResult.ok (Value.str "r")))
          initEngine
          (WorkflowStep.mk "s1" "a" [] (some "") (some 300) StepType.sequential
            Option.none Option.none)
          (WorkflowContext.mk [] [])).2.1.step_outputs =
        [("s1", Value.dict [("outputs", Value.str "r")])] ∧
      Value.dict [("outputs", Value.str "r")] ≠
        Value.dict [("outputs", Value.dict [("", Value.str "r")])] := by
  constructor
  · simp [runStep, execute_step, WorkflowContext.resolve_inputs, WorkflowStep.inputs,
      WorkflowStep.skill, WorkflowStep.id, WorkflowStep.step_type, WorkflowStep.outputs,
      discover_agent_for_skill, initEngine, lookupStr, dictSet, storeStepOutput,
      WorkflowContext.set_step_output]
  · simp

/-- C6 (amended): output namespacing.  A successful sequential top-level
step stores `\x7boutputs: \x7b<name>: result\x7d\x7d` when its `outputs`
name is provided and non-empty, and `\x7boutputs: result\x7d` otherwise
(`claimStoredRecord`); every nested step of an all-successful parallel group
is stored under its own id by the same rule, and the parallel step itself
stores no aggregate entry of its own (its id's entry is untouched when it
does not collide with a nested id). -/
theorem output_namespacing (env : Env) (st : EngineSt) (ctx : WorkflowContext) :
    (∀ (step : WorkflowStep) (st' : EngineSt) (r : Value),
      step.step_type = StepType.sequential →
      execute_step env st step ctx = (st', Except.ok r) →
        runStep env st step ctx = (st', storeStepOutput ctx step r, Option.none) ∧
          lookupStr (storeStepOutput ctx step r).step_outputs step.id =
            some (claimStoredRecord step r)) ∧
      (∀ (p : WorkflowStep) (bs : List (String × List WorkflowStep))
        (ns : List WorkflowStep) (st' : EngineSt) (vs : List Value),
        p.step_type = StepType.parallel → p.branches = some bs → bs ≠ [] →
        lookupStr bs "steps" = some ns →
        gatherSteps env st ns ctx = (st', vs.map Except.ok) →
          runStep env st p ctx = (st', foldStores ns vs ctx, Option.none) ∧
            (∀ (n : WorkflowStep) (v : Value), (ns.map WorkflowStep.id).Nodup →
              (n, v) ∈ ns.zip vs →
                lookupStr (foldStores ns vs ctx).step_outputs n.id =
                  some (claimStoredRecord n v)) ∧
            (p.id ∉ ns.map WorkflowStep.id →
              lookupStr (foldStores ns vs ctx).step_outputs p.id =
                lookupStr ctx.step_outputs p.id)) := by
  constructor
  · intro step st' r hty hE
    constructor
    · unfold runStep
      rw [hty, hE]
    · exact storeStepOutput_lookup_self ctx step r
  · intro p bs ns st' vs hty hbr hne hsteps hg
    refine ⟨?_, ?_, ?_⟩
    · unfold runStep
      rw [hty, hbr]
      dsimp only
      rw [if_neg (show ¬bs.isEmpty = true by simpa using hne), hsteps]
      dsimp only
      unfold execute_parallel_steps
      rw [hg]
      simp [storeParallel_all_ok ns vs ctx]
    · intro n v hnodup hm
      exact foldStores_lookup_mem ns vs ctx n v hnodup hm
    · intro hp
      exact foldStores_lookup_not_mem ns vs ctx p.id hp

/-- Witness for C6: a sequential step with outputs name `"out"` stores the
namespaced record, and a two-step parallel group stores both nested steps
and leaves the parallel step's own id absent. -/
theorem output_namespacing_witness :
    runStep (Env.mk (fun _ => some "u") (fun _ _ _ => InvokeResult.ok (Value.int 9)))
        initEngine
        (WorkflowStep.mk "s1" "a" [] (some "out") (some 300) StepType.sequential
          Option.none Option.none)
        (WorkflowContext.mk [] []) =
      (EngineSt.mk [("a", "u")] ["a"] ["s1"],
        storeStepOutput (WorkflowContext.mk [] [])
          (WorkflowStep.mk "s1" "a" [] (some "out") (some 300) StepType.sequential
            Option.none Option.none)
          (Value.int 9),
        Option.none) ∧
      lookupStr
          (storeStepOutput (WorkflowContext.mk [] [])
            (WorkflowStep.mk "s1" "a" [] (some "out") (some 300) StepType.sequential
              Option.none Option.none)
            (Value.int 9)).step_outputs "s1" =
        some (claimStoredRecord
          (WorkflowStep.mk "s1" "a" [] (some "out") (some 300) StepType.sequential
            Option.none Option.none)
          (Value.int 9)) :=
  (output_namespacing
      (Env.mk (fun _ => some "u") (fun _ _ _ => InvokeResult.ok (Value.int 9)))
      initEngine (WorkflowContext.mk [] [])).1
    (WorkflowStep.mk "s1" "a" [] (some "out") (some 300) StepType.sequential
      Option.none Option.none)
    (EngineSt.mk [("a", "u")] ["a"] ["s1"]) (Value.int 9) rfl
    (by simp [execute_step, WorkflowContext.resolve_inputs, WorkflowStep.inputs,
      WorkflowStep.skill, WorkflowStep.id, discover_agent_for_skill, initEngine,
      lookupStr, dictSet])

theorem runBranchSteps_trace (env : Env) :
    ∀ (bs : List WorkflowStep) (st : EngineSt) (ctx : WorkflowContext) (x : String),
      x ∈ ((runBranchSteps env st bs ctx).1).trace →
        x ∈ st.trace ∨ x ∈ bs.map WorkflowStep.id
  | [], st, ctx, x, hx => Or.inl hx
  | s :: rest, st, ctx, x, hx => by
    simp only [runBranchSteps] at hx
    rcases hE : execute_step env st s ctx with ⟨st1, r⟩
    rw [hE] at hx
    have htr := execute_step_trace env st s ctx
    rw [hE] at htr
    simp only at htr
    cases r with
    | error e =>
      simp only at hx
      rcases htr with h | h
      · rw [h] at hx
        exact Or.inl hx
      · rw [h] at hx
        rcases List.mem_append.mp hx with hx | hx
        · exact Or.inl hx
        · right
          simp only [List.mem_singleton] at hx
          simp [hx]
    | ok result =>
      have := runBranchSteps_trace env rest st1 (ctx.set_step_output s.id result) x
        (by simpa using hx)
      rcases this with h | h
      · rcases htr with h2 | h2
        · rw [h2] at h
          exact Or.inl h
        · rw [h2] at h
          rcases List.mem_append.mp h with h | h
          · exact Or.inl h
          · right
            simp only [List.mem_singleton] at h
            simp [h]
      · right
        simp [h]

theorem runBranchSteps_untouched (env : Env) :
    ∀ (bs : List WorkflowStep) (st : EngineSt) (ctx : WorkflowContext) (k : String),
      k ∉ bs.map WorkflowStep.id →
        lookupStr (((runBranchSteps env st bs ctx).2.1).step_outputs) k =
          lookupStr ctx.step_outputs k
  | [], st, ctx, k, _ => rfl
  | s :: rest, st, ctx, k, hk => by
    simp only [List.map_cons, List.mem_cons, not_or] at hk
    simp only [runBranchSteps]
    rcases hE : execute_step env st s ctx with ⟨st1, r⟩
    cases r with
    | error e => simp
    | ok result =>
      simp only
      rw [runBranchSteps_untouched env rest st1 _ k (by simpa using hk.2)]
      exact set_step_output_lookup_ne ctx s.id result k hk.1

/-- C5 (counterexample): a Conditional step whose selected branch carries a
nested step with an `outputs` name does not store Sequential-style — the
branch loop calls `set_step_output(branch_step.id, result)` directly,
ignoring `outputs`, so the stored record is the raw `\x7boutputs:
result\x7d`, not `\x7boutputs: \x7bfoo: result\x7d\x7d`. -/
theorem conditional_no_namespacing_counterexample :
    (execute_conditional_step
          (Env.mk (fun _ => some "u") (fun _ _ _ => InvokeResult.ok (Value.int 5)))
          initEngine
          (WorkflowStep.mk "c" "sk" [] Option.none (some 300) StepType.conditional
            (some "\x7b\x7b workflow.input.f \x7d\x7d")
            (some [("if_true",
                [WorkflowStep.mk "n" "a" [] (some "foo") (some 300) StepType.sequential
                  Option.none Option.none]),
              ("if_false", [])]))
          (WorkflowContext.mk [("f", Value.bool true)] [])).2.1.step_outputs =
        [("n", Value.dict [("outputs", Value.int 5)])] ∧
      Value.dict [("outputs", Value.int 5)] ≠
        Value.dict [("outputs", Value.dict [("foo", Value.int 5)])] := by
  constructor
  · simp [execute_conditional_step, WorkflowStep.condition, WorkflowStep.branches,
      WorkflowStep.id, runBranchSteps, execute_step, WorkflowContext.resolve_inputs,
      WorkflowStep.inputs, WorkflowStep.skill, discover_agent_for_skill, initEngine,
      lookupStr, dictSet, WorkflowContext.set_step_output,
      WorkflowContext.resolve_expression, truthy, pyMatch, pyStrip, pySpace,
      matchSpacesGroup, matchGroupClose, matchClose, pySplitDot, splitAux, navigate]
  · simp

/-- C5 (amended): Conditional branch semantics.  A missing (or empty, hence
falsy) `condition`, checked first, or a missing (or empty) `branches`
mapping fails the step with `ValueError` before the condition is resolved or
any nested step dispatched (state and context untouched).  Otherwise the
resolved condition's truthiness selects exactly the `if_true` or `if_false`
list (missing key: empty list), whose steps run in declaration order, each
result stored RAW under the nested step's own id (`\x7boutputs:
result\x7d`, the nested `outputs` name ignored); the non-selected branch is
never dispatched — every invocation in the final trace is either pre-existing
or of a selected-branch step id, and entries of ids outside the selected
branch are untouched. -/
theorem conditional_branch_semantics (env : Env) (st : EngineSt) (step : WorkflowStep)
    (ctx : WorkflowContext) :
    ((step.condition = Option.none ∨ step.condition = some "") →
      execute_conditional_step env st step ctx =
        (st, ctx,
          some (PyErr.valueError ("Conditional step " ++ step.id ++ " missing condition")))) ∧
      (∀ c, step.condition = some c → c ≠ "" →
        (step.branches = Option.none ∨ step.branches = some []) →
          execute_conditional_step env st step ctx =
            (st, ctx,
              some (PyErr.valueError
                ("Conditional step " ++ step.id ++ " missing branches")))) ∧
      (∀ c bs v, step.condition = some c → c ≠ "" → step.branches = some bs →
        bs ≠ [] → ctx.resolve_expression (Value.str c) = Except.ok v →
          execute_conditional_step env st step ctx =
            runBranchSteps env st
              (if truthy v then (lookupStr bs "if_true").getD []
               else (lookupStr bs "if_false").getD []) ctx) ∧
      (∀ (s : WorkflowStep) (rest : List WorkflowStep) (st' : EngineSt) (r : Value),
        execute_step env st s ctx = (st', Except.ok r) →
          runBranchSteps env st (s :: rest) ctx =
              runBranchSteps env st' rest (ctx.set_step_output s.id r) ∧
            lookupStr (ctx.set_step_output s.id r).step_outputs s.id =
              some (Value.dict [("outputs", r)])) ∧
      (∀ (bs : List WorkflowStep) (st' : EngineSt) (ctx' : WorkflowContext)
        (err : Option PyErr), runBranchSteps env st bs ctx = (st', ctx', err) →
          (∀ x, x ∈ st'.trace → x ∈ st.trace ∨ x ∈ bs.map WorkflowStep.id) ∧
            (∀ k, k ∉ bs.map WorkflowStep.id →
              lookupStr ctx'.step_outputs k = lookupStr ctx.step_outputs k)) := by
  refine ⟨?_, ?_, ?_, ?_, ?_⟩
  · intro h
    unfold execute_conditional_step
    rcases h with h | h <;> rw [h]
    simp
  · intro c hc hcne h
    unfold execute_conditional_step
    rw [hc]
    dsimp only
    rw [if_neg hcne]
    rcases h with h | h <;> simp [h]
  · intro c bs v hc hcne hb hbne hres
    unfold execute_conditional_step
    rw [hc]
    dsimp only
    rw [if_neg hcne, hb]
    dsimp only
    rw [if_neg (show ¬bs.isEmpty = true by simpa using hbne), hres]
  · intro s rest st' r hE
    constructor
    · simp only [runBranchSteps]
      rw [hE]
    · exact set_step_output_lookup_self ctx s.id r
  · intro bs st' ctx' err hrun
    constructor
    · intro x hx
      have := runBranchSteps_trace env bs st ctx x
      rw [hrun] at this
      exact this hx
    · intro k hk
      have := runBranchSteps_untouched env bs st ctx k hk
      rw [hrun] at this
      exact this

/-- Witness for C5: a truthy condition selects the `if_true` list, and a
missing condition fails with the configuration error. -/
theorem conditional_branch_semantics_witness :
    execute_conditional_step
        (Env.mk (fun _ => some "u") (fun _ _ _ => InvokeResult.ok (Value.int 5)))
        initEngine
        (WorkflowStep.mk "c" "sk" [] Option.none (some 300) StepType.conditional
          (some "\x7b\x7b workflow.input.f \x7d\x7d")
          (some [("if_true",
              [WorkflowStep.mk "t1" "a" [] Option.none (some 300) StepType.sequential
                Option.none Option.none]),
            ("if_false",
              [WorkflowStep.mk "f1" "b" [] Option.none (some 300) StepType.sequential
                Option.none Option.none])]))
        (WorkflowContext.mk [("f", Value.bool true)] []) =
      runBranchSteps
        (Env.mk (fun _ => some "u") (fun _ _ _ => InvokeResult.ok (Value.int 5)))
        initEngine
        [WorkflowStep.mk "t1" "a" [] Option.none (some 300) StepType.sequential
          Option.none Option.none]
        (WorkflowContext.mk [("f", Value.bool true)] []) ∧
      execute_conditional_step
          (Env.mk (fun _ => some "u") (fun _ _ _ => InvokeResult.ok (Value.int 5)))
          initEngine
          (WorkflowStep.mk "c2" "sk" [] Option.none (some 300) StepType.conditional
            Option.none Option.none)
          (WorkflowContext.mk [] []) =
        (initEngine, WorkflowContext.mk [] [],
          some (PyErr.valueError "Conditional step c2 missing condition")) := by
  constructor
  · have := (conditional_branch_semantics
        (Env.mk (fun _ => some "u") (fun _ _ _ => InvokeResult.ok (Value.int 5)))
        initEngine
        (WorkflowStep.mk "c" "sk" [] Option.none (some 300) StepType.conditional
          (some "\x7b\x7b workflow.input.f \x7d\x7d")
          (some [("if_true",
              [WorkflowStep.mk "t1" "a" [] Option.none (some 300) StepType.sequential
                Option.none Option.none]),
            ("if_false",
              [WorkflowStep.mk "f1" "b" [] Option.none (some 300) StepType.sequential
                Option.none Option.none])]))
        (WorkflowContext.mk [("f", Value.bool true)] [])).2.2.1
      "\x7b\x7b workflow.input.f \x7d\x7d"
      [("if_true",
          [WorkflowStep.mk "t1" "a" [] Option.none (some 300) StepType.sequential
            Option.none Option.none]),
        ("if_false",
          [WorkflowStep.mk "f1" "b" [] Option.none (some 300) StepType.sequential
            Option.none Option.none])]
      (Value.bool true) rfl (by simp) rfl (by simp) rfl
    simpa using this
  · exact (conditional_branch_semantics
        (Env.mk (fun _ => some "u") (fun _ _ _ => InvokeResult.ok (Value.int 5)))
        initEngine
        (WorkflowStep.mk "c2" "sk" [] Option.none (some 300) StepType.conditional
          Option.none Option.none)
        (WorkflowContext.mk [] [])).1 (Or.inl rfl)

/-- C3 (counterexample): the switch's branch selection is
`branches.get(matched) or branches.get("default", [])` — a present case key
whose step list is empty is falsy, so the default branch executes even
though the key is present, contradicting "the default branch executes only
when the key is not present": here the resolved condition is `"a"`, the key
`"a"` is present (mapping to `[]`), yet the default's step `d1` is
dispatched and stored. -/
theorem switch_empty_case_falls_to_default :
    lookupStr [("a", ([] : List WorkflowStep)),
        ("default",
          [WorkflowStep.mk "d1" "dsk" [] Option.none (some 300) StepType.sequential
            Option.none Option.none])] "a" = some [] ∧
      (execute_switch_step
          (Env.mk (fun _ => some "u") (fun _ _ _ => InvokeResult.ok (Value.int 3)))
          initEngine
          (WorkflowStep.mk "sw" "sk" [] Option.none (some 300) StepType.switch
            (some "\x7b\x7b workflow.input.k \x7d\x7d")
            (some [("a", []),
              ("default",
                [WorkflowStep.mk "d1" "dsk" [] Option.none (some 300)
                  StepType.sequential Option.none Option.none])]))
          (WorkflowContext.mk [("k", Value.str "a")] [])).2.1.step_outputs =
        [("d1", Value.dict [("outputs", Value.int 3)])] := by
  constructor
  · rfl
  · simp [execute_switch_step, WorkflowStep.condition, WorkflowStep.branches,
      WorkflowStep.id, runBranchSteps, execute_step, WorkflowContext.resolve_inputs,
      WorkflowStep.inputs, WorkflowStep.skill, discover_agent_for_skill, initEngine,
      lookupStr, dictSet, WorkflowContext.set_step_output,
      WorkflowContext.resolve_expression, pyStr, pyMatch, pyStrip, pySpace,
      matchSpacesGroup, matchGroupClose, matchClose, pySplitDot, splitAux, navigate]

/-- C3 (amended): switch dispatch.  With condition and branches present (and
truthy), the resolved condition value is stringified and looked up as an
exact key: a present key with a non-empty step list executes exactly that
list; when the key is absent — or present but mapped to an empty (falsy)
list — the `default` list executes if present and non-empty; when neither
selection yields steps, the step is a no-op: no nested step dispatched, no
context entry written, no error raised, engine state and context returned
unchanged. -/
theorem switch_dispatch (env : Env) (st : EngineSt) (step : WorkflowStep)
    (ctx : WorkflowContext) :
    ∀ c bs v, step.condition = some c → c ≠ "" → step.branches = some bs → bs ≠ [] →
      ctx.resolve_expression (Value.str c) = Except.ok v →
        (∀ l, lookupStr bs (pyStr v) = some l → l ≠ [] →
          execute_switch_step env st step ctx = runBranchSteps env st l ctx) ∧
          ((lookupStr bs (pyStr v) = Option.none ∨ lookupStr bs (pyStr v) = some []) →
            (∀ d, lookupStr bs "default" = some d → d ≠ [] →
              execute_switch_step env st step ctx = runBranchSteps env st d ctx) ∧
              ((lookupStr bs "default" = Option.none ∨
                  lookupStr bs "default" = some []) →
                execute_switch_step env st step ctx = (st, ctx, Option.none))) := by
  intro c bs v hc hcne hb hbne hres
  have hbase : execute_switch_step env st step ctx =
      (let branch_steps :=
        match lookupStr bs (pyStr v) with
        | some l => if l.isEmpty then (lookupStr bs "default").getD [] else l
        | Option.none => (lookupStr bs "default").getD []
      if branch_steps.isEmpty then (st, ctx, Option.none)
      else runBranchSteps env st branch_steps ctx) := by
    unfold execute_switch_step
    rw [hc]
    dsimp only
    rw [if_neg hcne, hb]
    dsimp only
    rw [if_neg (show ¬bs.isEmpty = true by simpa using hbne), hres]
  constructor
  · intro l hl hlne
    rw [hbase]
    simp only [hl]
    rw [if_neg (show ¬l.isEmpty = true by simpa using hlne)]
    rw [if_neg (show ¬l.isEmpty = true by simpa using hlne)]
  · intro hmiss
    constructor
    · intro d hd hdne
      rw [hbase]
      rcases hmiss with hm | hm <;> simp [hm, hd, List.isEmpty_iff, hdne]
    · intro hdef
      rw [hbase]
      rcases hmiss with hm | hm <;> rcases hdef with hd | hd <;>
        simp [hm, hd]

/-- Witness for C3: a switch whose condition resolves to `"a"` with a
non-empty `"a"` branch dispatches exactly that branch; with no matching key
and no default, the step is a no-op. -/
theorem switch_dispatch_witness :
    execute_switch_step
        (Env.mk (fun _ => some "u") (fun _ _ _ => InvokeResult.ok (Value.int 3)))
        initEngine
        (WorkflowStep.mk "sw" "sk" [] Option.none (some 300) StepType.switch
          (some "\x7b\x7b workflow.input.k \x7d\x7d")
          (some [("a",
            [WorkflowStep.mk "sa" "ask" [] Option.none (some 300) StepType.sequential
              Option.none Option.none])]))
        (WorkflowContext.mk [("k", Value.str "a")] []) =
      runBranchSteps
        (Env.mk (fun _ => some "u") (fun _ _ _ => InvokeResult.ok (Value.int 3)))
        initEngine
        [WorkflowStep.mk "sa" "ask" [] Option.none (some 300) StepType.sequential
          Option.none Option.none]
        (WorkflowContext.mk [("k", Value.str "a")] []) ∧
      execute_switch_step
          (Env.mk (fun _ => some "u") (fun _ _ _ => InvokeResult.ok (Value.int 3)))
          initEngine
          (WorkflowStep.mk "sw" "sk" [] Option.none (some 300) StepType.switch
            (some "\x7b\x7b workflow.input.k \x7d\x7d")
            (some [("b",
              [WorkflowStep.mk "sb" "bsk" [] Option.none (some 300) StepType.sequential
                Option.none Option.none])]))
          (WorkflowContext.mk [("k", Value.str "a")] []) =
        (initEngine, WorkflowContext.mk [("k", Value.str "a")] [], Option.none) := by
  constructor
  · exact (switch_dispatch
        (Env.mk (fun _ => some "u") (fun _ _ _ => InvokeResult.ok (Value.int 3)))
        initEngine
        (WorkflowStep.mk "sw" "sk" [] Option.none (some 300) StepType.switch
          (some "\x7b\x7b workflow.input.k \x7d\x7d")
          (some [("a",
            [WorkflowStep.mk "sa" "ask" [] Option.none (some 300) StepType.sequential
              Option.none Option.none])]))
        (WorkflowContext.mk [("k", Value.str "a")] [])
        "\x7b\x7b workflow.input.k \x7d\x7d"
        [("a",
          [WorkflowStep.mk "sa" "ask" [] Option.none (some 300) StepType.sequential
            Option.none Option.none])]
        (Value.str "a") rfl (by simp) rfl (by simp) rfl).1
      [WorkflowStep.mk "sa" "ask" [] Option.none (some 300) StepType.sequential
        Option.none Option.none]
      rfl (by simp)
  · exact ((switch_dispatch
        (Env.mk (fun _ => some "u") (fun _ _ _ => InvokeResult.ok (Value.int 3)))
        initEngine
        (WorkflowStep.mk "sw" "sk" [] Option.none (some 300) StepType.switch
          (some "\x7b\x7b workflow.input.k \x7d\x7d")
          (some [("b",
            [WorkflowStep.mk "sb" "bsk" [] Option.none (some 300) StepType.sequential
              Option.none Option.none])]))
        (WorkflowContext.mk [("k", Value.str "a")] [])
        "\x7b\x7b workflow.input.k \x7d\x7d"
        [("b",
          [WorkflowStep.mk "sb" "bsk" [] Option.none (some 300) StepType.sequential
            Option.none Option.none])]
        (Value.str "a") rfl (by simp) rfl (by simp) rfl).2
      (Or.inl rfl)).2 (Or.inl rfl)

end Pallet
